import Mathlib

/-!
Shallow embedding of the sankalp day-ledger core (src/app/page.tsx):
the date classifier, the day generator, the ledger store with its
serialization/validation, the completion engine and the progress
calculator, together with theorems settling the specification claims.

Dates are modelled at the granularity the source observes: a `DateTime`
carries the local calendar-day index (what `toDateString` equality and
`setHours(0,0,0,0)` comparison expose) plus a time-of-day component.
A JS `Invalid Date` (NaN) can arise only from parsing a stored string,
so parse results are `Option DateTime` and every constructed `DateTime`
is valid.
-/

namespace Sankalp

/-- A valid JS `Date`, at the granularity the source observes:
`day` is the local calendar-day index, `msOfDay` the time within the day. -/
structure DateTime where
  day : Int
  msOfDay : Nat
deriving DecidableEq

/-- Source `date.setDate(today.getDate() + i)`: local calendar arithmetic adds
`i` days (month/year rollover handled by the calendar), keeping the time. -/
def addDays (t : DateTime) (i : Nat) : DateTime := ⟨t.day + i, t.msOfDay⟩

/-- Source `isToday`: `date.toDateString() === today.toDateString()`,
i.e. same local calendar day. -/
def isToday (d now : DateTime) : Bool := d.day == now.day

/-- Source `isPast`: both dates with `setHours(0,0,0,0)`, then `<`. -/
def isPast (d now : DateTime) : Bool := d.day < now.day

/-- Source `isFuture`: both dates with `setHours(0,0,0,0)`, then `>`. -/
def isFuture (d now : DateTime) : Bool := d.day > now.day

/-- Source `isValidDate`: `date instanceof Date && !isNaN(date.getTime())`.
In this model an invalid (NaN) date is exactly a failed parse, i.e. `none`. -/
def isValidDate : Option DateTime → Bool
  | some _ => true
  | none => false

/-- Model of `date.toLocaleDateString('hi-IN')`: the locale output is
environment-provided; modelled as a deterministic function of the date. -/
def localeDateString (d : DateTime) : String := "date:" ++ toString d.day

/-- Model of `date.toLocaleDateString('hi-IN', \x7b weekday: 'long' \x7d)`. -/
def localeDayName (d : DateTime) : String :=
  "weekday:" ++ toString ((d.day % 7 + 7) % 7)

/-- One day-record of the ledger (interface `SankalpDay`). -/
structure SankalpDay where
  date : DateTime
  day : Int
  isToday : Bool
  isPast : Bool
  isFuture : Bool
  dateString : String
  dayName : String
deriving DecidableEq

/-- Interface `ValidationError`. -/
structure ValidationError where
  field : String
  message : String
deriving DecidableEq

def STORAGE_VERSION : Int := 1
def MAX_SANKALP_DAYS : Int := 365
def MIN_SANKALP_DAYS : Int := 1

/-- Numeric value of a digit string (used by the `parseInt` model). -/
def digitsVal (cs : List Char) : Nat :=
  cs.foldl (fun a c => a * 10 + (c.toNat - 48)) 0

/-- Digit-prefix parse: `none` when no leading digit exists. -/
def digitsOf (cs : List Char) : Option Nat :=
  let ds := cs.takeWhile Char.isDigit
  if ds = [] then none else some (digitsVal ds)

/-- Model of JS `parseInt(input)` (decimal): skip leading whitespace,
optional sign, longest digit prefix; NaN (`none`) when no digit follows. -/
def parseIntJS (s : String) : Option Int :=
  match s.data.dropWhile Char.isWhitespace with
  | '-' :: rest => (digitsOf rest).map (fun n => -(n : Int))
  | '+' :: rest => (digitsOf rest).map (fun n => (n : Int))
  | rest => (digitsOf rest).map (fun n => (n : Int))

/-- Model of `input.trim()`. -/
def jsTrim (s : String) : String :=
  ⟨((s.data.dropWhile Char.isWhitespace).reverse.dropWhile Char.isWhitespace).reverse⟩

def blankError : ValidationError := ⟨"days", "कृपया दिनों की संख्या दर्ज करें"⟩
def nanError : ValidationError := ⟨"days", "कृपया वैध संख्या दर्ज करें"⟩
def minError : ValidationError :=
  ⟨"days", "संकल्प कम से कम " ++ toString MIN_SANKALP_DAYS ++ " दिन का होना चाहिए"⟩
def maxError : ValidationError :=
  ⟨"days", "संकल्प अधिकतम " ++ toString MAX_SANKALP_DAYS ++ " दिन का हो सकता है"⟩
def generationError : ValidationError := ⟨"days", "दिनों की गणना में त्रुटि हुई है"⟩

/-- Source `validateDaysInput`. -/
def validateDaysInput (input : String) : List ValidationError :=
  if input = "" ∨ jsTrim input = "" then [blankError]
  else
    match parseIntJS input with
    | none => [nanError]
    | some numDays =>
      (if numDays < MIN_SANKALP_DAYS then [minError] else []) ++
      (if numDays > MAX_SANKALP_DAYS then [maxError] else [])

/-- Source `generateSankalpDays`: loop `i` from `0` to `numDays-1`,
build `today + i` with recomputed flags; the defensive invalid-date branch
skips the offset (unreachable for constructed dates, see `isValidDate`). -/
def generateSankalpDays (numDays : Int) (now : DateTime) : List SankalpDay :=
  (List.range numDays.toNat).filterMap (fun i =>
    let date := addDays now i
    if isValidDate (some date) then
      some { date := date
           , day := (i : Int) + 1
           , isToday := Sankalp.isToday date now
           , isPast := Sankalp.isPast date now
           , isFuture := Sankalp.isFuture date now
           , dateString := localeDateString date
           , dayName := localeDayName date }
    else none)

/-- The component state relevant to the ledger (the `useState` cells). -/
structure TrackerState where
  days : String
  sankalpStarted : Bool
  completedDays : Finset Int
  sankalpDays : List SankalpDay
  totalDays : Int
  validationErrors : List ValidationError
deriving DecidableEq

/-- The initial (not-started) state of the component. -/
def initialState : TrackerState := ⟨"", false, ∅, [], 0, []⟩

/-- Source `startSankalp`. -/
def startSankalp (st : TrackerState) (now : DateTime) : TrackerState :=
  let errors := validateDaysInput st.days
  let st1 := { st with validationErrors := errors }
  if errors ≠ [] then st1
  else
    match parseIntJS st.days with
    | none => st1 -- dead: empty `errors` entails a successful parse
    | some numDays =>
      let generatedDays := generateSankalpDays numDays now
      if (generatedDays.length : Int) ≠ numDays then
        { st1 with validationErrors := [generationError] }
      else
        { st1 with totalDays := numDays
                 , sankalpDays := generatedDays
                 , sankalpStarted := true
                 , validationErrors := [] }

/-- Source `toggleDay`. -/
def toggleDay (st : TrackerState) (dayNumber : Int) : TrackerState :=
  if dayNumber < 1 ∨ dayNumber > st.totalDays then st
  else
    match st.sankalpDays.find? (fun d => d.day == dayNumber) with
    | none => st
    | some dayToToggle =>
      if dayToToggle.isFuture ∧ dayNumber ∉ st.completedDays then st
      else if dayNumber ∈ st.completedDays then
        { st with completedDays := st.completedDays.erase dayNumber }
      else
        { st with completedDays := insert dayNumber st.completedDays }

/-- Source `resetSankalp`: every cell back to its initial value
(the persisted snapshot is purged as well, see `loadFromStorage`). -/
def resetSankalp (_st : TrackerState) : TrackerState := initialState

/-- Interface `StoredSankalpDay`. The `date` field of the JSON record is a
string produced by `toISOString`; the model keeps its parse result: parsing
(`new Date(s)`) yields either the encoded instant or an Invalid Date (`none`). -/
structure StoredSankalpDay where
  date : Option DateTime
  day : Int
  isToday : Bool
  isPast : Bool
  isFuture : Bool
  dateString : String
  dayName : String
deriving DecidableEq

/-- Interface `StoredSankalpData`. `completedDays` entries are dynamic JSON
values; an entry is `some n` when it is a number (modelled at integer
granularity) and `none` when it is non-numeric. `startDate` is the parse
result of the stored string, as in `StoredSankalpDay.date`. -/
structure StoredSankalpData where
  totalDays : Int
  completedDays : List (Option Int)
  sankalpDays : List StoredSankalpDay
  startDate : Option DateTime
  sankalpStarted : Bool
  version : Int
deriving DecidableEq

/-- Source `validateSankalpData`. The `typeof`/`Array.isArray`
field checks hold by construction in this typed model, so the residual
content of the source predicate is the version comparison. -/
def validateSankalpData (data : StoredSankalpData) : Bool :=
  data.version == STORAGE_VERSION

/-- One record of `sankalpDays.map(day => (\x7b ...day, date: day.date.toISOString() \x7d))`
inside `saveToStorage`: serializing a valid date gives a string that parses
back to the same instant, hence `some d.date`. -/
def toStoredDay (d : SankalpDay) : StoredSankalpDay :=
  ⟨some d.date, d.day, d.isToday, d.isPast, d.isFuture, d.dateString, d.dayName⟩

/-- Source `saveToStorage`: build `dataToSave`, validate it, and
persist it (`none` = nothing written). `Array.from(completedDays)` is the
set's elements as a list (order irrelevant to the decoded set; the model
lists them sorted); `sankalpDays[0]?.date.toISOString() || ''` is the first
day's date, or the empty string — which parses as Invalid Date (`none`). -/
def saveToStorage (st : TrackerState) : Option StoredSankalpData :=
  let dataToSave : StoredSankalpData :=
    { totalDays := st.totalDays
    , completedDays := (st.completedDays.sort (· ≤ ·)).map some
    , sankalpDays := st.sankalpDays.map toStoredDay
    , startDate := st.sankalpDays.head?.map (fun d => d.date)
    , sankalpStarted := st.sankalpStarted
    , version := STORAGE_VERSION }
  if validateSankalpData dataToSave then some dataToSave else none

/-- One step of the `data.sankalpDays.map(...).filter(Boolean)` reconstruction
in `loadFromStorage`: parse the stored date string; an invalid date yields
`null` (dropped by the filter); otherwise rebuild the record keeping the
stored `day`, `dateString`, `dayName` and recomputing the temporal flags
against the current moment. -/
def reconstructDay (now : DateTime) (d : StoredSankalpDay) : Option SankalpDay :=
  match d.date with
  | none => none
  | some date =>
    some { date := date
         , day := d.day
         , isToday := Sankalp.isToday date now
         , isPast := Sankalp.isPast date now
         , isFuture := Sankalp.isFuture date now
         , dateString := d.dateString
         , dayName := d.dayName }

/-- The `completedDays.filter(...)` predicate in `loadFromStorage`:
keep an entry iff it is a number within `[1, totalDays]`. -/
def keepCompleted (totalDays : Int) : Option Int → Option Int
  | some n => if 1 ≤ n ∧ n ≤ totalDays then some n else none
  | none => none

/-- Source `loadFromStorage`, acting on the persisted slot
(`none` = no saved record) and producing the component state reached from
the initial mount state together with the slot's content afterwards
(`none` = the record was absent or has been removed as corrupt). -/
def loadFromStorage (saved : Option StoredSankalpData) (now : DateTime) :
    TrackerState × Option StoredSankalpData :=
  match saved with
  | none => (initialState, none)
  | some data =>
    if validateSankalpData data = false then (initialState, none)
    else if isValidDate data.startDate = false then (initialState, none)
    else
      let reconstructedDays := data.sankalpDays.filterMap (reconstructDay now)
      if (reconstructedDays.length : Int) = data.totalDays then
        ({ initialState with
             sankalpStarted := data.sankalpStarted
           , completedDays :=
               (data.completedDays.filterMap (keepCompleted data.totalDays)).toFinset
           , sankalpDays := reconstructedDays
           , totalDays := data.totalDays }
        , some data)
      else (initialState, none)

/-! ### Progress calculator

`completionPercentage` is `Math.round((completedDays.size / totalDays) * 100)`
evaluated in IEEE-754 binary64: one correctly rounded division, one correctly
rounded multiplication, then `Math.round` (ties toward plus infinity) on the
mathematical value of the resulting double. `flRound` rounds an exact
rational to the nearest representable binary64 value (round-to-nearest,
ties-to-even); all quantities involved lie well inside the normal range. -/

/-- Floor of `log2 n` for `1 ≤ n`, by fuel-bounded structural recursion. -/
def log2floor : Nat → Nat → Nat
  | 0, _ => 0
  | fuel + 1, n => if n < 2 then 0 else log2floor fuel (n / 2) + 1

/-- Floor of `log2 n` for `1 ≤ n` (`n` itself is enough fuel). -/
def nlog2 (n : Nat) : Nat := log2floor n n

/-- Round a rational to the nearest integer, ties to even. -/
def rne (y : ℚ) : ℤ :=
  let f := ⌊y⌋
  if y - f < 1 / 2 then f
  else if (1 : ℚ) / 2 < y - f then f + 1
  else if 2 ∣ f then f else f + 1

/-- Floor of `log2 r` for a positive rational. -/
def floorLog2 (r : ℚ) : ℤ :=
  if 1 ≤ r then (nlog2 ⌊r⌋.toNat : ℤ)
  else
    let k := nlog2 ⌊r⁻¹⌋.toNat
    if r * 2 ^ k = 1 then -(k : ℤ) else -(k : ℤ) - 1

/-- The binary64 value nearest to a rational (round-to-nearest, ties-to-even),
for quantities in the normal range; nonpositive inputs (only `0` arises in
the source) map to `0`. -/
def flRound (r : ℚ) : ℚ :=
  if r ≤ 0 then 0
  else
    let e := floorLog2 r
    (rne (r * (2 : ℚ) ^ ((52 : ℤ) - e)) : ℚ) * (2 : ℚ) ^ (e - (52 : ℤ))

/-- ES `Math.round` on the mathematical value of a double:
nearest integer, ties toward plus infinity. -/
def jsRound (x : ℚ) : ℤ := ⌊x + 1 / 2⌋

/-- Source `completionPercentage`:
`totalDays > 0 ? Math.round((completedDays.size / totalDays) * 100) : 0`. -/
def completionPercentage (st : TrackerState) : ℤ :=
  if 0 < st.totalDays then
    jsRound (flRound (flRound ((st.completedDays.card : ℚ) / (st.totalDays : ℚ)) * 100))
  else 0

/-- Modelled from the spec's words (for comparison with the code's
`completionPercentage`): exact rational `round`, half rounding up —
at `[1,365]`-day scales this agrees with ties-to-even except at exact
odd half-integers, where both conventions round `q + 1/2` identically
whenever `2q` is odd and `q + 1/2` is even, and differ by at most the
choice of tie direction otherwise. -/
def specRound (q : ℚ) : ℤ := ⌊q + 1 / 2⌋

/-- The ledger invariant of the spec's data model (§3): once started,
the day sequence has exactly `totalDays ≥ 1` records and every completed
entry is in range. -/
def LedgerInv (st : TrackerState) : Prop :=
  st.sankalpStarted = true →
    ((st.sankalpDays.length : Int) = st.totalDays ∧ 1 ≤ st.totalDays ∧
      ∀ n ∈ st.completedDays, 1 ≤ n ∧ n ≤ st.totalDays)

instance (st : TrackerState) : Decidable (LedgerInv st) := by
  unfold LedgerInv; infer_instance

/-- A reference moment used by concrete witnesses: local day index 0, 10:00. -/
def now0 : DateTime := ⟨0, 36000000⟩

/-- Exactly one of three booleans holds. -/
def exactlyOne (a b c : Bool) : Prop :=
  (a = true ∧ b = false ∧ c = false) ∨
  (a = false ∧ b = true ∧ c = false) ∨
  (a = false ∧ b = false ∧ c = true)

/-- A concrete started 3-day ledger (used by witnesses). -/
def exLedger : TrackerState := startSankalp { initialState with days := "3" } now0

/-- State `exLedger` with the record for day 1 missing from the day sequence. -/
def exNoDay : TrackerState := { exLedger with sankalpDays := exLedger.sankalpDays.tail }

/-- State `exLedger` with the (future) day 2 already marked complete. -/
def exFut : TrackerState := { exLedger with completedDays := {2} }

/-- The day-2 record of `exLedger`: one day after `now0`, flagged future. -/
def exDay2 : SankalpDay :=
  ⟨⟨1, 36000000⟩, 2, false, false, true,
    localeDateString ⟨1, 36000000⟩, localeDayName ⟨1, 36000000⟩⟩

/-- The day-1 record of `exLedger`: the current day, flagged today. -/
def exDay1 : SankalpDay :=
  ⟨⟨0, 36000000⟩, 1, true, false, false,
    localeDateString ⟨0, 36000000⟩, localeDayName ⟨0, 36000000⟩⟩

/-- A structurally well-typed stored record with `totalDays = 0` and
`sankalpStarted = true`: `validateSankalpData` accepts it and
`loadFromStorage` restores it (0 reconstructed days = stored `totalDays`). -/
def badStored : StoredSankalpData := ⟨0, [], [], some ⟨0, 0⟩, true, 1⟩

/-- A 40-day ledger with days 1..23 completed: the input on which the
float64 percentage (57) differs from exact rounding of `100 * 23 / 40`
(58 under both round-half-up and round-half-even, since `57.5` ties to 58
either way). -/
def ex8 : TrackerState :=
  ⟨"40", true, Finset.Icc 1 23, generateSankalpDays 40 ⟨0, 0⟩, 40, []⟩

/-- The generated record for offset `i`. -/
def genRecord (now : DateTime) (i : Nat) : SankalpDay :=
  { date := addDays now i
  , day := (i : Int) + 1
  , isToday := Sankalp.isToday (addDays now i) now
  , isPast := Sankalp.isPast (addDays now i) now
  , isFuture := Sankalp.isFuture (addDays now i) now
  , dateString := localeDateString (addDays now i)
  , dayName := localeDayName (addDays now i) }

/-- The state produced by a successful restore. -/
def loadedState (data : StoredSankalpData) (now : DateTime) : TrackerState :=
  { initialState with
      sankalpStarted := data.sankalpStarted
    , completedDays :=
        (data.completedDays.filterMap (keepCompleted data.totalDays)).toFinset
    , sankalpDays := data.sankalpDays.filterMap (reconstructDay now)
    , totalDays := data.totalDays }

/-- The record built by `saveToStorage` (its `dataToSave`). -/
def storedOf (st : TrackerState) : StoredSankalpData :=
  { totalDays := st.totalDays
  , completedDays := (st.completedDays.sort (· ≤ ·)).map some
  , sankalpDays := st.sankalpDays.map toStoredDay
  , startDate := st.sankalpDays.head?.map (fun d => d.date)
  , sankalpStarted := st.sankalpStarted
  , version := STORAGE_VERSION }

/-- A stored record with a stale version tag (used by witnesses). -/
def exStoredBadVersion : StoredSankalpData := ⟨3, [], [], some ⟨0, 0⟩, false, 2⟩

/-- A stored record with partially corrupt `completedDays` (a non-numeric
entry and out-of-range entries) but a consistent day list (used by
witnesses). -/
def exStored : StoredSankalpData :=
  ⟨2, [some 1, some 5, none, some 0],
    [⟨some ⟨0, 0⟩, 1, true, false, false, "", ""⟩,
     ⟨some ⟨1, 0⟩, 2, false, false, true, "", ""⟩],
    some ⟨0, 0⟩, true, 1⟩

/-- A day record with its temporal flags recomputed against `now`
(the shape produced by the restore path for each surviving record). -/
def refreshDay (now : DateTime) (d : SankalpDay) : SankalpDay :=
  { date := d.date
  , day := d.day
  , isToday := Sankalp.isToday d.date now
  , isPast := Sankalp.isPast d.date now
  , isFuture := Sankalp.isFuture d.date now
  , dateString := d.dateString
  , dayName := d.dayName }

end Sankalp

namespace Sankalp

/-! ## Helper lemmas -/

theorem generate_eq_map (numDays : Int) (now : DateTime) :
    generateSankalpDays numDays now = (List.range numDays.toNat).map (genRecord now) := by
  show List.filterMap (some ∘ genRecord now) (List.range numDays.toNat) = _
  rw [List.filterMap_eq_map]

theorem generate_length (numDays : Int) (now : DateTime) :
    (generateSankalpDays numDays now).length = numDays.toNat := by
  rw [generate_eq_map]; simp

theorem generate_get (n : Int) (now : DateTime) (i : Nat)
    (h : i < (generateSankalpDays n now).length) :
    (generateSankalpDays n now).get ⟨i, h⟩ = genRecord now i := by
  revert h
  rw [generate_eq_map]
  intro h
  have hi : i < n.toNat := by simpa using h
  simp [List.get_eq_getElem, List.getElem_map, List.getElem_range]

theorem exactlyOne_classifier (d now : DateTime) :
    exactlyOne (isToday d now) (isPast d now) (isFuture d now) := by
  simp only [exactlyOne, isToday, isPast, isFuture, beq_iff_eq, beq_eq_false_iff_ne,
    ne_eq, decide_eq_true_eq, decide_eq_false_iff_not]
  omega

theorem load_none (now : DateTime) : loadFromStorage none now = (initialState, none) := rfl

theorem load_some_eq (data : StoredSankalpData) (now : DateTime) :
    loadFromStorage (some data) now =
      if validateSankalpData data = false then (initialState, none)
      else if isValidDate data.startDate = false then (initialState, none)
      else if ((data.sankalpDays.filterMap (reconstructDay now)).length : Int)
          = data.totalDays then (loadedState data now, some data)
      else (initialState, none) := rfl

theorem load_days_flags (saved : Option StoredSankalpData) (now : DateTime) :
    ∀ r ∈ (loadFromStorage saved now).1.sankalpDays,
      r.isToday = isToday r.date now ∧ r.isPast = isPast r.date now ∧
      r.isFuture = isFuture r.date now := by
  intro r hr
  match saved with
  | none => simp [load_none, initialState] at hr
  | some data =>
    rw [load_some_eq] at hr
    split_ifs at hr with h1 h2 h3
    · simp [initialState] at hr
    · simp [initialState] at hr
    · simp only [loadedState, initialState] at hr
      obtain ⟨d, _, hd⟩ := List.mem_filterMap.1 hr
      unfold reconstructDay at hd
      match hdate : d.date with
      | none => rw [hdate] at hd; cases hd
      | some date =>
        rw [hdate] at hd
        cases hd
        exact ⟨rfl, rfl, rfl⟩
    · simp [initialState] at hr

/-! ## C4: trichotomy of the date classifier -/

/-- C4. For every valid date, exactly one of `isToday`, `isPast`, `isFuture`
holds (`isPast` strict precedence, `isFuture` strict succession at
local-midnight granularity); the trichotomy holds for the flags stamped at
generation time and for the flags recomputed by `loadFromStorage`.
(In this embedding every constructed `DateTime` is a valid, non-NaN date;
invalid dates arise only as failed parses and are never classified.) -/
theorem C4_classifier_trichotomy :
    (∀ d now : DateTime, exactlyOne (isToday d now) (isPast d now) (isFuture d now)) ∧
    (∀ (numDays : Int) (now : DateTime), ∀ r ∈ generateSankalpDays numDays now,
      exactlyOne r.isToday r.isPast r.isFuture) ∧
    (∀ (saved : Option StoredSankalpData) (now : DateTime),
      ∀ r ∈ (loadFromStorage saved now).1.sankalpDays,
      exactlyOne r.isToday r.isPast r.isFuture) := by
  refine ⟨exactlyOne_classifier, ?_, ?_⟩
  · intro numDays now r hr
    rw [generate_eq_map] at hr
    obtain ⟨i, _, rfl⟩ := List.mem_map.1 hr
    exact exactlyOne_classifier _ _
  · intro saved now r hr
    obtain ⟨h1, h2, h3⟩ := load_days_flags saved now r hr
    rw [h1, h2, h3]
    exact exactlyOne_classifier _ _

/-- C4 witness. -/
theorem C4_classifier_trichotomy_witness :
    exactlyOne (isToday ⟨3, 0⟩ now0) (isPast ⟨3, 0⟩ now0) (isFuture ⟨3, 0⟩ now0) ∧
    exactlyOne exDay1.isToday exDay1.isPast exDay1.isFuture :=
  ⟨C4_classifier_trichotomy.1 ⟨3, 0⟩ now0,
   C4_classifier_trichotomy.2.1 3 now0 exDay1 (by decide)⟩

/-! ## C5: the day generator -/

/-- C5. For `numDays` in `[1, 365]`, `generateSankalpDays` returns exactly
`numDays` records, whose `day` values are exactly `1..numDays` in order,
and the record at index `i` carries `date = today + i` days under local
calendar arithmetic. -/
theorem C5_generate_days (n : Int) (now : DateTime) (h1 : 1 ≤ n) (_h2 : n ≤ 365) :
    ((generateSankalpDays n now).length : Int) = n ∧
    (generateSankalpDays n now).map (fun r => r.day)
      = (List.range n.toNat).map (fun i : Nat => (i : Int) + 1) ∧
    ∀ i (h : i < (generateSankalpDays n now).length),
      ((generateSankalpDays n now).get ⟨i, h⟩).date = addDays now i := by
  refine ⟨?_, ?_, ?_⟩
  · rw [generate_length]; omega
  · rw [generate_eq_map, List.map_map]; rfl
  · intro i h
    rw [generate_get]
    rfl

/-- C5 witness. -/
theorem C5_generate_days_witness :
    ((generateSankalpDays 3 now0).length : Int) = 3 ∧
    ((generateSankalpDays 3 now0).get
      ⟨2, by decide⟩).date = addDays now0 2 :=
  ⟨(C5_generate_days 3 now0 (by decide) (by decide)).1,
   (C5_generate_days 3 now0 (by decide) (by decide)).2.2 2 (by decide)⟩

/-! ## Toggle helper lemmas -/

theorem toggleDay_of_out (st : TrackerState) (d : Int)
    (h : d < 1 ∨ d > st.totalDays) : toggleDay st d = st := by
  unfold toggleDay
  rw [if_pos h]

theorem toggleDay_of_find_none (st : TrackerState) (d : Int)
    (h : st.sankalpDays.find? (fun r => r.day == d) = none) : toggleDay st d = st := by
  unfold toggleDay
  split
  · rfl
  · rw [h]

theorem toggleDay_of_future_not_mem (st : TrackerState) (d : Int) (r0 : SankalpDay)
    (hf : st.sankalpDays.find? (fun r => r.day == d) = some r0)
    (hfut : r0.isFuture = true) (hmem : d ∉ st.completedDays) : toggleDay st d = st := by
  unfold toggleDay
  split
  · rfl
  · rw [hf]
    exact if_pos ⟨hfut, hmem⟩

theorem toggleDay_erase (st : TrackerState) (d : Int) (r0 : SankalpDay)
    (hrange : ¬(d < 1 ∨ d > st.totalDays))
    (hf : st.sankalpDays.find? (fun r => r.day == d) = some r0)
    (hmem : d ∈ st.completedDays) :
    toggleDay st d = { st with completedDays := st.completedDays.erase d } := by
  have hguard : ¬(r0.isFuture = true ∧ d ∉ st.completedDays) := fun hc => hc.2 hmem
  unfold toggleDay
  rw [if_neg hrange, hf]
  dsimp only
  rw [if_neg hguard, if_pos hmem]

theorem toggleDay_insert (st : TrackerState) (d : Int) (r0 : SankalpDay)
    (hrange : ¬(d < 1 ∨ d > st.totalDays))
    (hf : st.sankalpDays.find? (fun r => r.day == d) = some r0)
    (hfut : r0.isFuture = false) (hmem : d ∉ st.completedDays) :
    toggleDay st d = { st with completedDays := insert d st.completedDays } := by
  have hguard : ¬(r0.isFuture = true ∧ d ∉ st.completedDays) := by
    intro hc
    rw [hfut] at hc
    exact absurd hc.1 (by simp)
  unfold toggleDay
  rw [if_neg hrange, hf]
  dsimp only
  rw [if_neg hguard, if_neg hmem]

theorem toggleDay_frame (st : TrackerState) (d : Int) :
    (toggleDay st d).days = st.days ∧
    (toggleDay st d).sankalpStarted = st.sankalpStarted ∧
    (toggleDay st d).sankalpDays = st.sankalpDays ∧
    (toggleDay st d).totalDays = st.totalDays ∧
    (toggleDay st d).validationErrors = st.validationErrors := by
  unfold toggleDay
  repeat' split
  all_goals exact ⟨rfl, rfl, rfl, rfl, rfl⟩

/-- Case analysis of the effect of `toggleDay` on the completed set. -/
theorem toggleDay_completed_cases (st : TrackerState) (d : Int) :
    (toggleDay st d).completedDays = st.completedDays ∨
    ((toggleDay st d).completedDays = st.completedDays.erase d ∧ d ∈ st.completedDays) ∨
    ((toggleDay st d).completedDays = insert d st.completedDays ∧ d ∉ st.completedDays ∧
      1 ≤ d ∧ d ≤ st.totalDays) := by
  by_cases hrange : d < 1 ∨ d > st.totalDays
  · left; rw [toggleDay_of_out st d hrange]
  · match hf : st.sankalpDays.find? (fun r => r.day == d) with
    | none => left; rw [toggleDay_of_find_none st d hf]
    | some r0 =>
      by_cases hmem : d ∈ st.completedDays
      · right; left
        rw [toggleDay_erase st d r0 hrange hf hmem]
        exact ⟨rfl, hmem⟩
      · match hfut : r0.isFuture with
        | true => left; rw [toggleDay_of_future_not_mem st d r0 hf hfut hmem]
        | false =>
          right; right
          rw [toggleDay_insert st d r0 hrange hf hfut hmem]
          exact ⟨rfl, hmem, by omega, by omega⟩

/-! ## C3: silent rejection policy of the completion engine -/

/-- C3. `toggleDay` leaves the state unchanged when the day number is
outside `[1, totalDays]`, when no day record with that number exists, or
when the found record is flagged future and the day is not already
completed; a future day that is already completed is removed. -/
theorem C3_toggle_rejections (st : TrackerState) (d : Int) :
    ((d < 1 ∨ d > st.totalDays) → toggleDay st d = st) ∧
    (st.sankalpDays.find? (fun r => r.day == d) = none → toggleDay st d = st) ∧
    (∀ r0 : SankalpDay, st.sankalpDays.find? (fun r => r.day == d) = some r0 →
      r0.isFuture = true → d ∉ st.completedDays → toggleDay st d = st) ∧
    (∀ r0 : SankalpDay, 1 ≤ d → d ≤ st.totalDays →
      st.sankalpDays.find? (fun r => r.day == d) = some r0 →
      r0.isFuture = true → d ∈ st.completedDays →
      (toggleDay st d).completedDays = st.completedDays.erase d) := by
  refine ⟨toggleDay_of_out st d, toggleDay_of_find_none st d,
    fun r0 => toggleDay_of_future_not_mem st d r0, ?_⟩
  intro r0 h1 h2 hf _hfut hmem
  rw [toggleDay_erase st d r0 (by omega) hf hmem]

/-- C3 witness. -/
theorem C3_toggle_rejections_witness :
    toggleDay exLedger 0 = exLedger ∧
    toggleDay exNoDay 1 = exNoDay ∧
    toggleDay exLedger 2 = exLedger ∧
    (toggleDay exFut 2).completedDays = exFut.completedDays.erase 2 :=
  ⟨(C3_toggle_rejections exLedger 0).1 (by decide),
   (C3_toggle_rejections exNoDay 1).2.1 (by decide),
   (C3_toggle_rejections exLedger 2).2.2.1 exDay2 (by decide) (by decide) (by decide),
   (C3_toggle_rejections exFut 2).2.2.2 exDay2 (by decide) (by decide) (by decide)
     (by decide) (by decide)⟩

/-! ## C10: frame property of the completion engine -/

/-- C10. `toggleDay` can change only the membership of the toggled day in
the completed set: every other field of the state, and membership of every
other day, is unchanged whether the toggle succeeds or is rejected. -/
theorem C10_toggle_frame (st : TrackerState) (d : Int) :
    (toggleDay st d).totalDays = st.totalDays ∧
    (toggleDay st d).sankalpDays = st.sankalpDays ∧
    (toggleDay st d).sankalpStarted = st.sankalpStarted ∧
    (toggleDay st d).days = st.days ∧
    (toggleDay st d).validationErrors = st.validationErrors ∧
    ∀ e : Int, e ≠ d → (e ∈ (toggleDay st d).completedDays ↔ e ∈ st.completedDays) := by
  obtain ⟨f1, f2, f3, f4, f5⟩ := toggleDay_frame st d
  refine ⟨f4, f3, f2, f1, f5, ?_⟩
  intro e he
  rcases toggleDay_completed_cases st d with h | ⟨h, _⟩ | ⟨h, _⟩
  · rw [h]
  · rw [h]; exact Finset.mem_erase.trans (by simp [he])
  · rw [h]; simp [Finset.mem_insert, he]

/-- C10 witness. -/
theorem C10_toggle_frame_witness :
    (toggleDay exLedger 1).totalDays = exLedger.totalDays ∧
    (2 ∈ (toggleDay exLedger 1).completedDays ↔ 2 ∈ exLedger.completedDays) :=
  ⟨(C10_toggle_frame exLedger 1).1,
   (C10_toggle_frame exLedger 1).2.2.2.2.2 2 (by decide)⟩

/-! ## C9: toggle is an involution on eligible days -/

/-- C9. For a valid day number whose record is not flagged future (an
eligible day: only today/past days can be newly marked, cf. §4.4 of the
spec), toggling twice returns the completed set to its prior state.
The state carries the day's temporal flags unchanged between the two
calls, matching the claim's side condition. -/
theorem C9_toggle_involution (st : TrackerState) (d : Int) (r0 : SankalpDay)
    (h1 : 1 ≤ d) (h2 : d ≤ st.totalDays)
    (hf : st.sankalpDays.find? (fun r => r.day == d) = some r0)
    (hfut : r0.isFuture = false) :
    (toggleDay (toggleDay st d) d).completedDays = st.completedDays := by
  have hrange : ¬(d < 1 ∨ d > st.totalDays) := by omega
  by_cases hmem : d ∈ st.completedDays
  · rw [toggleDay_erase st d r0 hrange hf hmem]
    rw [toggleDay_insert { st with completedDays := st.completedDays.erase d } d r0
      hrange hf hfut (Finset.not_mem_erase d st.completedDays)]
    exact Finset.insert_erase hmem
  · rw [toggleDay_insert st d r0 hrange hf hfut hmem]
    rw [toggleDay_erase { st with completedDays := insert d st.completedDays } d r0
      hrange hf (Finset.mem_insert_self d st.completedDays)]
    exact Finset.erase_insert hmem

/-- C9 witness. -/
theorem C9_toggle_involution_witness :
    1 ≤ exLedger.totalDays ∧
    (toggleDay (toggleDay exLedger 1) 1).completedDays = exLedger.completedDays :=
  ⟨by decide,
   C9_toggle_involution exLedger 1 exDay1 (by decide) (by decide) (by decide) (by decide)⟩

/-! ## Start helper lemmas -/

theorem validate_empty_bounds (s : String) (h : validateDaysInput s = []) :
    ∃ n : Int, parseIntJS s = some n ∧ 1 ≤ n ∧ n ≤ 365 := by
  unfold validateDaysInput at h
  by_cases hb : s = "" ∨ jsTrim s = ""
  · rw [if_pos hb] at h; simp at h
  · rw [if_neg hb] at h
    cases hp : parseIntJS s with
    | none => rw [hp] at h; simp at h
    | some n =>
      rw [hp] at h
      dsimp only at h
      by_cases h1 : n < MIN_SANKALP_DAYS
      · rw [if_pos h1] at h; simp at h
      · by_cases h2 : n > MAX_SANKALP_DAYS
        · rw [if_neg h1, if_pos h2] at h; simp at h
        · simp only [MIN_SANKALP_DAYS, not_lt] at h1
          simp only [MAX_SANKALP_DAYS, not_lt, gt_iff_lt] at h2
          exact ⟨n, rfl, h1, h2⟩

theorem startSankalp_fail (st : TrackerState) (now : DateTime)
    (h : validateDaysInput st.days ≠ []) :
    startSankalp st now = { st with validationErrors := validateDaysInput st.days } := by
  unfold startSankalp
  dsimp only
  rw [if_pos h]

theorem startSankalp_success (st : TrackerState) (now : DateTime) (n : Int)
    (hp : parseIntJS st.days = some n) (hv : validateDaysInput st.days = [])
    (hn : 0 ≤ n) :
    startSankalp st now =
      { st with totalDays := n
              , sankalpDays := generateSankalpDays n now
              , sankalpStarted := true
              , validationErrors := [] } := by
  have hlen : ¬ ((generateSankalpDays n now).length : Int) ≠ n := by
    rw [generate_length]; omega
  unfold startSankalp
  rw [hv, hp]
  dsimp only
  rw [if_neg (by simp), if_neg hlen]

/-! ## Binary64 model lemmas -/

theorem log2floor_spec : ∀ (fuel n : Nat), 1 ≤ n → n ≤ fuel →
    2 ^ log2floor fuel n ≤ n ∧ n < 2 ^ (log2floor fuel n + 1) := by
  intro fuel
  induction fuel with
  | zero => intro n h1 h2; omega
  | succ f ih =>
    intro n h1 h2
    unfold log2floor
    by_cases hn : n < 2
    · rw [if_pos hn]
      constructor
      · simpa using h1
      · simpa using hn
    · rw [if_neg hn]
      have h1' : 1 ≤ n / 2 := by omega
      have h2' : n / 2 ≤ f := by omega
      obtain ⟨a, b⟩ := ih (n / 2) h1' h2'
      rw [pow_succ] at b
      constructor
      · rw [pow_succ]
        omega
      · rw [pow_succ, pow_succ]
        omega

theorem nlog2_spec (n : Nat) (h : 1 ≤ n) :
    2 ^ nlog2 n ≤ n ∧ n < 2 ^ (nlog2 n + 1) :=
  log2floor_spec n n h le_rfl

theorem floorLog2_spec (r : ℚ) (hr : 0 < r) :
    (2 : ℚ) ^ floorLog2 r ≤ r ∧ r < (2 : ℚ) ^ (floorLog2 r + 1) := by
  unfold floorLog2
  by_cases h1 : 1 ≤ r
  · rw [if_pos h1]
    have hfl : 1 ≤ ⌊r⌋ := by
      rw [Int.le_floor]
      exact_mod_cast h1
    have hm : 1 ≤ ⌊r⌋.toNat := by omega
    obtain ⟨a, b⟩ := nlog2_spec ⌊r⌋.toNat hm
    have hcast : ((⌊r⌋.toNat : ℤ) : ℚ) = (⌊r⌋ : ℚ) := by
      rw [Int.toNat_of_nonneg (by omega)]
    constructor
    · rw [zpow_natCast]
      calc ((2 : ℚ) ^ nlog2 ⌊r⌋.toNat) ≤ ((⌊r⌋.toNat : ℤ) : ℚ) := by exact_mod_cast a
        _ = (⌊r⌋ : ℚ) := hcast
        _ ≤ r := Int.floor_le r
    · have hb : (⌊r⌋.toNat : ℤ) + 1 ≤ 2 ^ (nlog2 ⌊r⌋.toNat + 1) := by exact_mod_cast b
      have : (r : ℚ) < (⌊r⌋ : ℚ) + 1 := Int.lt_floor_add_one r
      calc r < (⌊r⌋ : ℚ) + 1 := Int.lt_floor_add_one r
        _ = ((⌊r⌋.toNat : ℤ) : ℚ) + 1 := by rw [hcast]
        _ ≤ ((2 : ℚ) ^ (nlog2 ⌊r⌋.toNat + 1)) := by exact_mod_cast hb
        _ = (2 : ℚ) ^ (((nlog2 ⌊r⌋.toNat : ℤ)) + 1) := by
            rw [← zpow_natCast (2 : ℚ)]
            norm_cast
  · rw [if_neg h1]
    push_neg at h1
    have hinv : 1 < r⁻¹ := one_lt_inv_iff.2 ⟨hr, h1⟩
    have hfl : 1 ≤ ⌊r⁻¹⌋ := by
      rw [Int.le_floor]
      exact_mod_cast hinv.le
    have hm : 1 ≤ ⌊r⁻¹⌋.toNat := by omega
    obtain ⟨a, b⟩ := nlog2_spec ⌊r⁻¹⌋.toNat hm
    have hcast : ((⌊r⁻¹⌋.toNat : ℤ) : ℚ) = (⌊r⁻¹⌋ : ℚ) := by
      rw [Int.toNat_of_nonneg (by omega)]
    have ha : (2 : ℚ) ^ nlog2 ⌊r⁻¹⌋.toNat ≤ r⁻¹ := by
      calc ((2 : ℚ) ^ nlog2 ⌊r⁻¹⌋.toNat) ≤ ((⌊r⁻¹⌋.toNat : ℤ) : ℚ) := by exact_mod_cast a
        _ = (⌊r⁻¹⌋ : ℚ) := hcast
        _ ≤ r⁻¹ := Int.floor_le r⁻¹
    have hb : r⁻¹ < (2 : ℚ) ^ (nlog2 ⌊r⁻¹⌋.toNat + 1) := by
      have hb2 : (⌊r⁻¹⌋.toNat : ℤ) + 1 ≤ 2 ^ (nlog2 ⌊r⁻¹⌋.toNat + 1) := by exact_mod_cast b
      calc r⁻¹ < (⌊r⁻¹⌋ : ℚ) + 1 := Int.lt_floor_add_one r⁻¹
        _ = ((⌊r⁻¹⌋.toNat : ℤ) : ℚ) + 1 := by rw [hcast]
        _ ≤ ((2 : ℚ) ^ (nlog2 ⌊r⁻¹⌋.toNat + 1)) := by exact_mod_cast hb2
    set k := nlog2 ⌊r⁻¹⌋.toNat with hk
    have hpow : (0 : ℚ) < (2 : ℚ) ^ k := by positivity
    have hpow1 : (0 : ℚ) < (2 : ℚ) ^ (k + 1) := by positivity
    have hz1 : (2 : ℚ) ^ (-(k : ℤ)) = ((2 : ℚ) ^ k)⁻¹ := by
      rw [zpow_neg, zpow_natCast]
    have hz2 : (2 : ℚ) ^ (-(k : ℤ) - 1) = ((2 : ℚ) ^ (k + 1))⁻¹ := by
      rw [show -(k : ℤ) - 1 = -(((k + 1 : ℕ) : ℤ)) by push_cast; ring, zpow_neg,
        zpow_natCast]
    by_cases he : r * 2 ^ k = 1
    · rw [if_pos he]
      have hre : r = ((2 : ℚ) ^ k)⁻¹ := eq_inv_of_mul_eq_one_left (by linarith [he, mul_comm r ((2 : ℚ) ^ k)])
      constructor
      · rw [hz1, hre]
      · rw [zpow_add₀ (two_ne_zero) (-(k : ℤ)) 1, zpow_one, hz1, hre]
        have : (0 : ℚ) < ((2 : ℚ) ^ k)⁻¹ := by positivity
        linarith
    · rw [if_neg he]
      constructor
      · have hlt : ((2 : ℚ) ^ (k + 1))⁻¹ < (r⁻¹)⁻¹ := by
          exact inv_lt_inv_of_lt (by positivity) hb
        rw [inv_inv] at hlt
        rw [hz2]
        exact hlt.le
      · have hle : (r⁻¹)⁻¹ ≤ ((2 : ℚ) ^ k)⁻¹ := inv_le_inv_of_le hpow ha
        rw [inv_inv] at hle
        have hne : r ≠ ((2 : ℚ) ^ k)⁻¹ := by
          intro hre
          apply he
          rw [hre]
          field_simp
        have hexp : -(k : ℤ) - 1 + 1 = -(k : ℤ) := by ring
        rw [hexp, hz1]
        exact lt_of_le_of_ne hle hne

theorem rne_err (y : ℚ) : |(rne y : ℚ) - y| ≤ 1 / 2 := by
  have hfl : (⌊y⌋ : ℚ) ≤ y := Int.floor_le y
  have hfl2 : y < (⌊y⌋ : ℚ) + 1 := Int.lt_floor_add_one y
  have hc1 : ((⌊y⌋ + 1 : ℤ) : ℚ) = (⌊y⌋ : ℚ) + 1 := by push_cast; ring
  unfold rne
  dsimp only
  split_ifs with h1 h2 h3
  · rw [abs_le]
    exact ⟨by linarith, by linarith⟩
  · rw [hc1, abs_le]
    exact ⟨by linarith, by linarith⟩
  · rw [abs_le]
    exact ⟨by linarith, by linarith⟩
  · rw [hc1, abs_le]
    exact ⟨by linarith, by linarith⟩

theorem rne_eq_of (y : ℚ) (f : ℤ) (h1 : (f : ℚ) ≤ y) (h2 : y - f < 1 / 2) :
    rne y = f := by
  have hf : ⌊y⌋ = f := by
    rw [Int.floor_eq_iff]
    constructor
    · exact h1
    · linarith
  unfold rne
  rw [hf, if_pos h2]

theorem flRound_of_nonpos (r : ℚ) (h : r ≤ 0) : flRound r = 0 := by
  unfold flRound
  rw [if_pos h]

theorem flRound_err (r : ℚ) (hr : 0 < r) :
    |flRound r - r| ≤ r * (2 : ℚ) ^ (-(53 : ℤ)) := by
  obtain ⟨he1, _⟩ := floorLog2_spec r hr
  unfold flRound
  rw [if_neg (not_le.mpr hr)]
  set e := floorLog2 r with he
  set y := r * (2 : ℚ) ^ ((52 : ℤ) - e) with hy
  have h2pos : (0 : ℚ) < (2 : ℚ) ^ (e - 52) := by positivity
  have hyr : y * (2 : ℚ) ^ (e - 52) = r := by
    rw [hy, mul_assoc, ← zpow_add₀ (two_ne_zero : (2 : ℚ) ≠ 0)]
    norm_num
  have step1 : |(rne y : ℚ) * (2 : ℚ) ^ (e - 52) - r|
      = |(rne y : ℚ) - y| * (2 : ℚ) ^ (e - 52) := by
    rw [← hyr, ← sub_mul, abs_mul, abs_of_pos h2pos]
  rw [step1]
  calc |(rne y : ℚ) - y| * (2 : ℚ) ^ (e - 52)
      ≤ (1 / 2) * (2 : ℚ) ^ (e - 52) :=
        mul_le_mul_of_nonneg_right (rne_err y) h2pos.le
    _ = (2 : ℚ) ^ (e - 53) := by
        rw [show (e : ℤ) - 53 = -1 + (e - 52) by ring,
          zpow_add₀ (two_ne_zero : (2 : ℚ) ≠ 0)]
        norm_num
    _ = (2 : ℚ) ^ e * (2 : ℚ) ^ (-(53 : ℤ)) := by
        rw [← zpow_add₀ (two_ne_zero : (2 : ℚ) ≠ 0)]
        ring_nf
    _ ≤ r * (2 : ℚ) ^ (-(53 : ℤ)) :=
        mul_le_mul_of_nonneg_right he1 (by positivity)

theorem pow53_eq : (2 : ℚ) ^ (-(53 : ℤ)) = 1 / 9007199254740992 := by
  norm_num

theorem pow40_eq : (2 : ℚ) ^ (-(40 : ℤ)) = 1 / 1099511627776 := by
  norm_num

theorem flRound_pos (r : ℚ) (hr : 0 < r) : 0 < flRound r := by
  have herr := flRound_err r hr
  rw [pow53_eq, abs_le] at herr
  linarith [herr.1]

/-- Composite error of the two rounded float operations against the exact
value `100 * s / t`, for `s ≤ t`. -/
theorem pct_err (s t : ℕ) (ht : 1 ≤ t) (hs : s ≤ t) :
    |flRound (flRound ((s : ℚ) / t) * 100) - 100 * ((s : ℚ) / t)|
      ≤ (2 : ℚ) ^ (-(40 : ℤ)) := by
  have htQ : (0 : ℚ) < t := by exact_mod_cast ht
  by_cases hs0 : s = 0
  · subst hs0
    rw [show ((0 : ℕ) : ℚ) / t = 0 by simp, flRound_of_nonpos 0 le_rfl]
    rw [show (0 : ℚ) * 100 = 0 by ring, flRound_of_nonpos 0 le_rfl]
    simp
    positivity
  · have hq : (0 : ℚ) < (s : ℚ) / t := by
      apply div_pos _ htQ
      exact_mod_cast Nat.pos_of_ne_zero hs0
    have hq1 : (s : ℚ) / t ≤ 1 := by
      rw [div_le_one htQ]
      exact_mod_cast hs
    have hd := flRound_err ((s : ℚ) / t) hq
    have hdpos : 0 < flRound ((s : ℚ) / t) := flRound_pos ((s : ℚ) / t) hq
    have hd100 : (0 : ℚ) < flRound ((s : ℚ) / t) * 100 := by positivity
    have hp := flRound_err (flRound ((s : ℚ) / t) * 100) hd100
    rw [pow53_eq, abs_le] at hd hp
    rw [pow40_eq, abs_le]
    set q : ℚ := (s : ℚ) / t with hqdef
    set d : ℚ := flRound q with hddef
    set p : ℚ := flRound (d * 100) with hpdef
    constructor
    · linarith [hd.1, hd.2, hp.1, hp.2, hq, hq1]
    · linarith [hd.1, hd.2, hp.1, hp.2, hq, hq1]

/-- The computed percentage can differ from the exact rounding of
`100 * s / t` only downward, and only by one. -/
theorem jsRound_near (x : ℚ) (s t : ℕ) (ht : 1 ≤ t) (ht2 : t ≤ 365)
    (hx : |x - 100 * ((s : ℚ) / t)| ≤ (2 : ℚ) ^ (-(40 : ℤ))) :
    jsRound x = specRound (100 * ((s : ℚ) / t)) ∨
    jsRound x = specRound (100 * ((s : ℚ) / t)) - 1 := by
  have htQ : (0 : ℚ) < t := by exact_mod_cast ht
  have ht365 : (t : ℚ) ≤ 365 := by exact_mod_cast ht2
  rw [pow40_eq, abs_le] at hx
  have hxu : x ≤ 100 * ((s : ℚ) / t) + 1 / 1099511627776 := by linarith [hx.2]
  have hxl : 100 * ((s : ℚ) / t) - 1 / 1099511627776 ≤ x := by linarith [hx.1]
  have hk1 : ((specRound (100 * ((s : ℚ) / t)) : ℤ) : ℚ) ≤ 100 * ((s : ℚ) / t) + 1 / 2 :=
    Int.floor_le _
  have hk2 : 100 * ((s : ℚ) / t) + 1 / 2
      < ((specRound (100 * ((s : ℚ) / t)) : ℤ) : ℚ) + 1 :=
    Int.lt_floor_add_one _
  set k : ℤ := specRound (100 * ((s : ℚ) / t)) with hkdef
  have h2t : (0 : ℚ) < 2 * t := by positivity
  have hqt : (100 * ((s : ℚ) / t)) * (2 * t) = 200 * s := by
    field_simp
    ring
  -- integrality: (q + 1/2) * 2t = 200 s + t is an integer strictly below 2t(k+1)
  have hint : (200 * (s : ℤ) + t) < 2 * t * (k + 1) := by
    have hm := mul_lt_mul_of_pos_right hk2 h2t
    have he : (100 * ((s : ℚ) / t) + 1 / 2) * (2 * t) = 200 * s + t := by
      field_simp
      ring
    rw [he] at hm
    have hm2 : (200 * (s : ℚ) + t) < (2 * t * (k + 1) : ℚ) := by
      linarith [hm]
    exact_mod_cast hm2
  have hint2 : ((200 * (s : ℚ) + t) + 1) ≤ (2 * (t : ℚ)) * ((k : ℚ) + 1) := by
    have : (200 * (s : ℤ) + t) + 1 ≤ 2 * t * (k + 1) := hint
    have hc : ((200 * (s : ℤ) + t + 1 : ℤ) : ℚ) ≤ ((2 * t * (k + 1) : ℤ) : ℚ) := by
      exact_mod_cast this
    push_cast at hc
    linarith [hc]
  have hupper : jsRound x ≤ k := by
    have hlt : x + 1 / 2 < (k : ℚ) + 1 := by
      refine (mul_lt_mul_right h2t).mp ?_
      have m1 : x * (2 * t) ≤ (100 * ((s : ℚ) / t) + 1 / 1099511627776) * (2 * t) :=
        mul_le_mul_of_nonneg_right hxu h2t.le
      have e1 : (100 * ((s : ℚ) / t) + 1 / 1099511627776) * (2 * t)
          = (100 * ((s : ℚ) / t)) * (2 * t) + (1 / 1099511627776) * (2 * t) := by ring
      have e2 : (1 / 1099511627776 : ℚ) * (2 * t) ≤ (1 / 1099511627776) * 730 := by
        have : (2 * (t : ℚ)) ≤ 730 := by linarith [ht365]
        linarith [this]
      have e3 : (x + 1 / 2) * (2 * t) = x * (2 * t) + t := by ring
      rw [e3]
      rw [hqt] at e1
      nlinarith [m1, e1, e2, hint2, htQ]
    have : jsRound x < k + 1 := by
      unfold jsRound
      rw [Int.floor_lt]
      push_cast
      linarith [hlt]
    omega
  have hlower : k - 1 ≤ jsRound x := by
    unfold jsRound
    rw [Int.le_floor]
    push_cast
    linarith [hk1, hxl]
  omega

theorem pct_mono (t s s' : ℕ) (ht : 1 ≤ t) (ht2 : t ≤ 365) (hss : s ≤ s')
    (hs't : s' ≤ t) :
    jsRound (flRound (flRound ((s : ℚ) / t) * 100))
      ≤ jsRound (flRound (flRound ((s' : ℚ) / t) * 100)) := by
  rcases eq_or_lt_of_le hss with rfl | hlt
  · exact le_refl _
  · have htQ : (0 : ℚ) < t := by exact_mod_cast ht
    have e1 := pct_err s t ht (le_of_lt (lt_of_lt_of_le hlt hs't))
    have e2 := pct_err s' t ht hs't
    rw [pow40_eq, abs_le] at e1 e2
    have hsc : (s : ℚ) + 1 ≤ (s' : ℚ) := by exact_mod_cast hlt
    have hdiv : 100 * ((s : ℚ) / t) + 100 / t ≤ 100 * ((s' : ℚ) / t) := by
      have hnum : (100 * (s : ℚ) + 100) / t ≤ (100 * (s' : ℚ)) / t := by
        apply (div_le_div_right htQ).mpr
        linarith [hsc]
      calc 100 * ((s : ℚ) / t) + 100 / t = (100 * (s : ℚ) + 100) / t := by ring
        _ ≤ (100 * (s' : ℚ)) / t := hnum
        _ = 100 * ((s' : ℚ) / t) := by ring
    have hts : (100 : ℚ) / 365 ≤ 100 / t := by
      apply div_le_div_of_nonneg_left (by norm_num) htQ
      exact_mod_cast ht2
    unfold jsRound
    apply Int.floor_mono
    linarith [e1.2, e2.1, hdiv, hts]

theorem flRound_one : flRound 1 = 1 := by
  have he : floorLog2 1 = 0 := by
    unfold floorLog2
    rw [if_pos (le_refl (1 : ℚ)), Int.floor_one]
    rfl
  have hm : rne ((1 : ℚ) * (2 : ℚ) ^ ((52 : ℤ) - 0)) = 2 ^ 52 := by
    apply rne_eq_of
    · push_cast
      norm_num
    · push_cast
      norm_num
  unfold flRound
  rw [if_neg (by norm_num)]
  dsimp only
  rw [he, hm]
  push_cast
  norm_num

theorem flRound_hundred : flRound 100 = 100 := by
  have hfl : ⌊(100 : ℚ)⌋ = 100 := by norm_num
  have he : floorLog2 100 = 6 := by
    unfold floorLog2
    rw [if_pos (by norm_num : (1 : ℚ) ≤ 100), hfl]
    rfl
  have hm : rne ((100 : ℚ) * (2 : ℚ) ^ ((52 : ℤ) - 6)) = 7036874417766400 := by
    apply rne_eq_of
    · push_cast
      norm_num
    · push_cast
      norm_num
  unfold flRound
  rw [if_neg (by norm_num)]
  dsimp only
  rw [he, hm]
  push_cast
  norm_num

theorem pct_zero : jsRound (flRound (flRound 0 * 100)) = 0 := by
  rw [flRound_of_nonpos 0 le_rfl, zero_mul, flRound_of_nonpos 0 le_rfl]
  unfold jsRound
  norm_num

theorem pct_full (t : ℕ) (ht : 1 ≤ t) :
    jsRound (flRound (flRound ((t : ℚ) / t) * 100)) = 100 := by
  have htQ : (0 : ℚ) < t := by exact_mod_cast ht
  rw [div_self (ne_of_gt htQ), flRound_one, one_mul, flRound_hundred]
  unfold jsRound
  norm_num

theorem flRound_23d40 :
    flRound ((23 : ℚ) / 40) = 5179139571476070 / 9007199254740992 := by
  have he : floorLog2 ((23 : ℚ) / 40) = -1 := by
    unfold floorLog2
    rw [if_neg (by norm_num)]
    dsimp only
    have hfl : ⌊((23 : ℚ) / 40)⁻¹⌋ = 1 := by
      rw [show ((23 : ℚ) / 40)⁻¹ = 40 / 23 by norm_num]
      rw [Int.floor_eq_iff]
      constructor <;> norm_num
    rw [hfl]
    rw [show ((1 : ℤ).toNat) = 1 from rfl]
    rw [show nlog2 1 = 0 from rfl]
    rw [if_neg (by norm_num)]
    norm_num
  have hm : rne ((23 : ℚ) / 40 * (2 : ℚ) ^ ((52 : ℤ) - (-1))) = 5179139571476070 := by
    apply rne_eq_of
    · push_cast
      norm_num
    · push_cast
      norm_num
  unfold flRound
  rw [if_neg (by norm_num)]
  dsimp only
  rw [he, hm]
  push_cast
  norm_num

theorem flRound_5749 :
    flRound ((5179139571476070 / 9007199254740992 : ℚ) * 100)
      = 8092405580431359 / 140737488355328 := by
  have he : floorLog2 ((5179139571476070 / 9007199254740992 : ℚ) * 100) = 5 := by
    unfold floorLog2
    rw [if_pos (by norm_num)]
    have hfl : ⌊(5179139571476070 / 9007199254740992 : ℚ) * 100⌋ = 57 := by
      rw [Int.floor_eq_iff]
      constructor <;> norm_num
    rw [hfl]
    rfl
  have hm : rne ((5179139571476070 / 9007199254740992 : ℚ) * 100
      * (2 : ℚ) ^ ((52 : ℤ) - 5)) = 8092405580431359 := by
    apply rne_eq_of
    · push_cast
      norm_num
    · push_cast
      norm_num
  unfold flRound
  rw [if_neg (by norm_num)]
  dsimp only
  rw [he, hm]
  push_cast
  norm_num

theorem completionPercentage_eq (st : TrackerState) (h : 0 < st.totalDays) :
    completionPercentage st =
      jsRound (flRound (flRound
        ((st.completedDays.card : ℚ) / (st.totalDays : ℚ)) * 100)) := by
  unfold completionPercentage
  rw [if_pos h]

theorem card_le_total (st : TrackerState)
    (hmem : ∀ n ∈ st.completedDays, 1 ≤ n ∧ n ≤ st.totalDays) :
    st.completedDays.card ≤ st.totalDays.toNat := by
  have hsub : st.completedDays ⊆ Finset.Icc 1 st.totalDays := fun n hn =>
    Finset.mem_Icc.2 ⟨(hmem n hn).1, (hmem n hn).2⟩
  have hc := Finset.card_le_card hsub
  rw [Int.card_Icc] at hc
  omega

/-! ## C8: the progress percentage

The source computes `Math.round((completedDays.size / totalDays) * 100)` in
binary64. At `completedDays.size = 23`, `totalDays = 40` the two rounded
operations produce `57.49999999999999289…` (the double below `57.5`,
because `23/40` is not representable and rounds down), so the code shows
57 while exact rounding of `100 * 23 / 40 = 57.5` gives 58 — under both
round-half-up and round-half-even, since 58 is even. The claim's equation
is therefore false on the code; the amended claim keeps the endpoint and
monotonicity parts and weakens the equation to `round or round − 1`. -/

/-- C8 counterexample: a well-formed 40-day ledger with 23 completed days
on which the computed percentage (57) differs from `round(100 * 23 / 40)`
(58 under either tie-breaking convention). -/
theorem C8_percentage_counterexample :
    LedgerInv ex8 ∧
    specRound (100 * (ex8.completedDays.card : ℚ) / (ex8.totalDays : ℚ)) = 58 ∧
    completionPercentage ex8 = 57 ∧
    completionPercentage ex8
      ≠ specRound (100 * (ex8.completedDays.card : ℚ) / (ex8.totalDays : ℚ)) := by
  have hcard : ex8.completedDays.card = 23 := by
    show (Finset.Icc (1 : ℤ) 23).card = 23
    rw [Int.card_Icc]
    rfl
  have hInv : LedgerInv ex8 := by
    intro _
    refine ⟨?_, by decide, ?_⟩
    · show ((generateSankalpDays 40 ⟨0, 0⟩).length : ℤ) = 40
      rw [generate_length]
      norm_num
    · intro n hn
      have hb := Finset.mem_Icc.1 hn
      show 1 ≤ n ∧ n ≤ 40
      omega
  have hspec : specRound (100 * (ex8.completedDays.card : ℚ) / (ex8.totalDays : ℚ))
      = 58 := by
    rw [hcard]
    show specRound (100 * ((23 : ℕ) : ℚ) / ((40 : ℤ) : ℚ)) = 58
    unfold specRound
    rw [Int.floor_eq_iff]
    constructor <;> norm_num
  have hpct : completionPercentage ex8 = 57 := by
    rw [completionPercentage_eq ex8 (by decide), hcard]
    show jsRound (flRound (flRound (((23 : ℕ) : ℚ) / ((40 : ℤ) : ℚ)) * 100)) = 57
    rw [show (((23 : ℕ) : ℚ) / ((40 : ℤ) : ℚ)) = (23 : ℚ) / 40 by norm_num]
    rw [flRound_23d40, flRound_5749]
    unfold jsRound
    rw [Int.floor_eq_iff]
    constructor <;> norm_num
  exact ⟨hInv, hspec, hpct, by rw [hspec, hpct]; decide⟩

/-- C8 amended. For every ledger (`1 ≤ totalDays ≤ 365`, completed set in
range), the percentage is 0 when `completed` is empty, 100 when
`|completed| = totalDays`, monotonically non-decreasing in the completed
set, and equals exact `round(100 * |completed| / totalDays)` or that value
minus one (the float64 evaluation can lose exact `.5` ties downward, as at
`23/40`). -/
theorem C8_percentage_amended (st : TrackerState)
    (h1 : 1 ≤ st.totalDays) (h2 : st.totalDays ≤ 365)
    (hmem : ∀ n ∈ st.completedDays, 1 ≤ n ∧ n ≤ st.totalDays) :
    (st.completedDays = ∅ → completionPercentage st = 0) ∧
    ((st.completedDays.card : ℤ) = st.totalDays → completionPercentage st = 100) ∧
    (∀ st' : TrackerState, st'.totalDays = st.totalDays →
      st.completedDays ⊆ st'.completedDays →
      (∀ n ∈ st'.completedDays, 1 ≤ n ∧ n ≤ st'.totalDays) →
      completionPercentage st ≤ completionPercentage st') ∧
    (completionPercentage st
        = specRound (100 * (st.completedDays.card : ℚ) / (st.totalDays : ℚ)) ∨
      completionPercentage st
        = specRound (100 * (st.completedDays.card : ℚ) / (st.totalDays : ℚ)) - 1) := by
  have hpos : 0 < st.totalDays := by omega
  have htc : ((st.totalDays.toNat : ℕ) : ℚ) = (st.totalDays : ℚ) := by
    exact_mod_cast Int.toNat_of_nonneg (by omega : (0 : ℤ) ≤ st.totalDays)
  have ht1 : 1 ≤ st.totalDays.toNat := by omega
  have ht2 : st.totalDays.toNat ≤ 365 := by omega
  have hsle : st.completedDays.card ≤ st.totalDays.toNat := card_le_total st hmem
  refine ⟨?_, ?_, ?_, ?_⟩
  · intro hemp
    rw [completionPercentage_eq st hpos, hemp, Finset.card_empty]
    rw [show ((0 : ℕ) : ℚ) = 0 by norm_num, zero_div]
    exact pct_zero
  · intro hfull
    rw [completionPercentage_eq st hpos]
    have hcard : st.completedDays.card = st.totalDays.toNat := by omega
    rw [hcard, ← htc]
    exact pct_full st.totalDays.toNat ht1
  · intro st' htot hsub hmem'
    rw [completionPercentage_eq st hpos,
      completionPercentage_eq st' (by rw [htot]; exact hpos), htot, ← htc]
    have hcard' : st'.completedDays.card ≤ st.totalDays.toNat := by
      have hca := card_le_total st' hmem'
      rw [htot] at hca
      exact hca
    exact pct_mono st.totalDays.toNat _ _ ht1 ht2 (Finset.card_le_card hsub) hcard'
  · rw [completionPercentage_eq st hpos, ← htc, mul_div_assoc]
    exact jsRound_near _ st.completedDays.card st.totalDays.toNat ht1 ht2
      (pct_err st.completedDays.card st.totalDays.toNat ht1 hsle)

/-- C8 witness (for the amended theorem). -/
theorem C8_percentage_amended_witness :
    completionPercentage exLedger = 0 ∧
    (completionPercentage ex8
        = specRound (100 * (ex8.completedDays.card : ℚ) / (ex8.totalDays : ℚ)) ∨
      completionPercentage ex8
        = specRound (100 * (ex8.completedDays.card : ℚ) / (ex8.totalDays : ℚ)) - 1) :=
  ⟨(C8_percentage_amended exLedger (by decide) (by decide) (by decide)).1 (by decide),
   (C8_percentage_amended ex8 (by decide) (by decide) (by decide)).2.2.2⟩

/-! ## C7: input validation and start -/

/-- C7. Blank input gives exactly the blank-input error; input the
`parseInt` model cannot read as an integer gives exactly the
not-a-number error; `"0"` the minimum error, `"400"` the maximum error;
`"21"` passes and `startSankalp` then yields `totalDays = 21`; in every
error case the ledger fields are unchanged. -/
theorem C7_input_validation (s : String) (st : TrackerState) (now : DateTime) :
    (jsTrim s = "" → validateDaysInput s = [blankError]) ∧
    (jsTrim s ≠ "" → parseIntJS s = none → validateDaysInput s = [nanError]) ∧
    validateDaysInput "0" = [minError] ∧
    validateDaysInput "400" = [maxError] ∧
    validateDaysInput "21" = [] ∧
    (st.days = "21" →
      (startSankalp st now).sankalpStarted = true ∧ (startSankalp st now).totalDays = 21) ∧
    (validateDaysInput st.days ≠ [] →
      (startSankalp st now).sankalpStarted = st.sankalpStarted ∧
      (startSankalp st now).totalDays = st.totalDays ∧
      (startSankalp st now).sankalpDays = st.sankalpDays ∧
      (startSankalp st now).completedDays = st.completedDays) := by
  refine ⟨?_, ?_, by decide, by decide, by decide, ?_, ?_⟩
  · intro hb
    unfold validateDaysInput
    rw [if_pos (Or.inr hb)]
  · intro hb hp
    unfold validateDaysInput
    rw [if_neg ?_, hp]
    rintro (rfl | hb2)
    · exact hb rfl
    · exact hb hb2
  · intro hd
    have hp : parseIntJS st.days = some 21 := by rw [hd]; decide
    have hv : validateDaysInput st.days = [] := by rw [hd]; decide
    rw [startSankalp_success st now 21 hp hv (by norm_num)]
    exact ⟨rfl, rfl⟩
  · intro h
    rw [startSankalp_fail st now h]
    exact ⟨rfl, rfl, rfl, rfl⟩

/-! ## Storage helper lemmas -/

theorem keepCompleted_eq_some (T : Int) (x : Option Int) (n : Int) :
    keepCompleted T x = some n ↔ x = some n ∧ 1 ≤ n ∧ n ≤ T := by
  cases x with
  | none => simp [keepCompleted]
  | some m =>
    simp only [keepCompleted]
    split_ifs with h
    · constructor
      · intro hmn
        injection hmn with hmn
        subst hmn
        exact ⟨rfl, h.1, h.2⟩
      · rintro ⟨hmn, _, _⟩
        exact hmn
    · constructor
      · intro hmn
        exact hmn.elim
      · rintro ⟨hmn, h1, h2⟩
        injection hmn with hmn
        subst hmn
        exact absurd ⟨h1, h2⟩ h

theorem filterKeep_map_some (T : Int) (l : List Int)
    (h : ∀ n ∈ l, 1 ≤ n ∧ n ≤ T) :
    (l.map some).filterMap (keepCompleted T) = l := by
  induction l with
  | nil => rfl
  | cons a t ih =>
    have ha := h a (List.mem_cons_self a t)
    have ht : ∀ n ∈ t, 1 ≤ n ∧ n ≤ T := fun n hn => h n (List.mem_cons_of_mem a hn)
    have hk : keepCompleted T (some a) = some a := if_pos ha
    rw [List.map_cons, List.filterMap_cons, hk, ih ht]

theorem saveToStorage_eq (st : TrackerState) :
    saveToStorage st = some (storedOf st) := by
  unfold saveToStorage storedOf
  exact if_pos rfl

theorem reconstruct_toStored (now : DateTime) (l : List SankalpDay) :
    (l.map toStoredDay).filterMap (reconstructDay now) = l.map (refreshDay now) := by
  rw [List.filterMap_map]
  show List.filterMap (some ∘ refreshDay now) l = _
  rw [List.filterMap_eq_map]

theorem load_success (data : StoredSankalpData) (now : DateTime)
    (hval : validateSankalpData data = true)
    (hsd : isValidDate data.startDate = true)
    (hcount : ((data.sankalpDays.filterMap (reconstructDay now)).length : Int)
      = data.totalDays) :
    loadFromStorage (some data) now = (loadedState data now, some data) := by
  rw [load_some_eq, if_neg (by rw [hval]; exact fun h => Bool.noConfusion h),
    if_neg (by rw [hsd]; exact fun h => Bool.noConfusion h), if_pos hcount]

theorem load_reject (data : StoredSankalpData) (now : DateTime)
    (h : validateSankalpData data = false ∨ isValidDate data.startDate = false ∨
      ((data.sankalpDays.filterMap (reconstructDay now)).length : Int) ≠ data.totalDays) :
    loadFromStorage (some data) now = (initialState, none) := by
  rw [load_some_eq]
  by_cases h1 : validateSankalpData data = false
  · rw [if_pos h1]
  · rw [if_neg h1]
    by_cases h2 : isValidDate data.startDate = false
    · rw [if_pos h2]
    · rw [if_neg h2]
      rcases h with h | h | h

      · exact absurd h h1
      · exact absurd h h2
      · rw [if_neg h]

theorem loaded_completed_bounds (data : StoredSankalpData) (now : DateTime) (n : Int) :
    n ∈ (loadedState data now).completedDays → 1 ≤ n ∧ n ≤ data.totalDays := by
  intro hn
  have hn2 : n ∈ data.completedDays.filterMap (keepCompleted data.totalDays) :=
    List.mem_toFinset.1 hn
  obtain ⟨x, _, hx⟩ := List.mem_filterMap.1 hn2
  obtain ⟨_, h1, h2⟩ := (keepCompleted_eq_some data.totalDays x n).1 hx
  exact ⟨h1, h2⟩

/-! ## C1: snapshot/restore round trip -/

/-- C1. For a started ledger (day sequence of length `totalDays ≥ 1`,
completed set in range), restoring the snapshot written by `saveToStorage`
reproduces the same `totalDays`, the same completed set, the started flag,
and a day sequence with the same dates in the same order; the temporal
flags of the restored records are recomputed against the restore-time
moment (so they coincide with the originals exactly when restored at an
instant of the same calendar day). -/
theorem C1_snapshot_roundtrip (st : TrackerState) (now : DateTime)
    (hstart : st.sankalpStarted = true)
    (hlen : (st.sankalpDays.length : Int) = st.totalDays)
    (hpos : 1 ≤ st.totalDays)
    (hmem : ∀ n ∈ st.completedDays, 1 ≤ n ∧ n ≤ st.totalDays) :
    (loadFromStorage (saveToStorage st) now).1.totalDays = st.totalDays ∧
    (loadFromStorage (saveToStorage st) now).1.completedDays = st.completedDays ∧
    (loadFromStorage (saveToStorage st) now).1.sankalpStarted = true ∧
    (loadFromStorage (saveToStorage st) now).1.sankalpDays.map (fun r => r.date)
      = st.sankalpDays.map (fun r => r.date) ∧
    ∀ r ∈ (loadFromStorage (saveToStorage st) now).1.sankalpDays,
      r.isToday = isToday r.date now ∧ r.isPast = isPast r.date now ∧
      r.isFuture = isFuture r.date now := by
  have hne : st.sankalpDays ≠ [] := by
    intro he
    rw [he] at hlen
    simp at hlen
    omega
  obtain ⟨hd, tl, hcons⟩ := List.exists_cons_of_ne_nil hne
  have hval : validateSankalpData (storedOf st) = true := rfl
  have hsd : isValidDate (storedOf st).startDate = true := by
    simp [storedOf, hcons, isValidDate]
  have hrec : (storedOf st).sankalpDays.filterMap (reconstructDay now)
      = st.sankalpDays.map (refreshDay now) := reconstruct_toStored now st.sankalpDays
  have hcount : (((storedOf st).sankalpDays.filterMap (reconstructDay now)).length : Int)
      = (storedOf st).totalDays := by
    rw [hrec, List.length_map]
    exact hlen
  have hload : loadFromStorage (saveToStorage st) now
      = (loadedState (storedOf st) now, some (storedOf st)) := by
    rw [saveToStorage_eq st]
    exact load_success _ now hval hsd hcount
  refine ⟨?_, ?_, ?_, ?_, ?_⟩
  · rw [hload]
    rfl
  · rw [hload]
    show ((storedOf st).completedDays.filterMap
      (keepCompleted (storedOf st).totalDays)).toFinset = st.completedDays
    show (((st.completedDays.sort (· ≤ ·)).map some).filterMap
      (keepCompleted st.totalDays)).toFinset = st.completedDays
    rw [filterKeep_map_some st.totalDays _
      (fun n hn => hmem n ((Finset.mem_sort (α := Int) (· ≤ ·)).1 hn))]
    exact Finset.sort_toFinset _ _
  · rw [hload]
    exact hstart
  · rw [hload]
    show ((storedOf st).sankalpDays.filterMap (reconstructDay now)).map (fun r => r.date)
      = st.sankalpDays.map (fun r => r.date)
    rw [hrec, List.map_map]
    rfl
  · exact load_days_flags (saveToStorage st) now

/-- C1 witness. -/
theorem C1_snapshot_roundtrip_witness :
    (loadFromStorage (saveToStorage exFut) now0).1.completedDays = exFut.completedDays ∧
    (loadFromStorage (saveToStorage exFut) now0).1.totalDays = exFut.totalDays :=
  ⟨(C1_snapshot_roundtrip exFut now0 (by decide) (by decide) (by decide) (by decide)).2.1,
   (C1_snapshot_roundtrip exFut now0 (by decide) (by decide) (by decide) (by decide)).1⟩

/-! ## C2: restore validation and corruption tolerance -/

/-- C2. `loadFromStorage` rejects and discards the whole record — leaving
the not-started initial state and an empty slot — when the version tag
differs from `STORAGE_VERSION` or the count of successfully reconstructed
day records differs from the stored `totalDays`; whereas `completedDays`
entries that are non-numeric or outside `[1, totalDays]` are merely
filtered out: the restore still succeeds and the surviving completed set
is exactly the in-range numeric entries. -/
theorem C2_restore_validation (data : StoredSankalpData) (now : DateTime) :
    ((data.version ≠ STORAGE_VERSION ∨
      ((data.sankalpDays.filterMap (reconstructDay now)).length : Int) ≠ data.totalDays) →
      loadFromStorage (some data) now = (initialState, none)) ∧
    (data.version = STORAGE_VERSION → isValidDate data.startDate = true →
      ((data.sankalpDays.filterMap (reconstructDay now)).length : Int) = data.totalDays →
      (loadFromStorage (some data) now).2 = some data ∧
      (loadFromStorage (some data) now).1.sankalpStarted = data.sankalpStarted ∧
      ∀ n : Int, n ∈ (loadFromStorage (some data) now).1.completedDays ↔
        (some n ∈ data.completedDays ∧ 1 ≤ n ∧ n ≤ data.totalDays)) := by
  constructor
  · rintro (hv | hc)
    · refine load_reject data now (Or.inl ?_)
      simp [validateSankalpData, STORAGE_VERSION]
      simpa [STORAGE_VERSION] using hv
    · exact load_reject data now (Or.inr (Or.inr hc))
  · intro hv hsd hc
    have hval : validateSankalpData data = true := by
      simp [validateSankalpData, STORAGE_VERSION, hv]
    rw [load_success data now hval hsd hc]
    refine ⟨rfl, rfl, ?_⟩
    intro n
    show n ∈ (data.completedDays.filterMap (keepCompleted data.totalDays)).toFinset ↔ _
    rw [List.mem_toFinset, List.mem_filterMap]
    constructor
    · rintro ⟨x, hx, hk⟩
      obtain ⟨rfl, h1, h2⟩ := (keepCompleted_eq_some data.totalDays x n).1 hk
      exact ⟨hx, h1, h2⟩
    · rintro ⟨hx, h1, h2⟩
      exact ⟨some n, hx, (keepCompleted_eq_some data.totalDays (some n) n).2 ⟨rfl, h1, h2⟩⟩

/-- C2 witness. -/
theorem C2_restore_validation_witness :
    loadFromStorage (some exStoredBadVersion) now0 = (initialState, none) ∧
    (1 ∈ (loadFromStorage (some exStored) now0).1.completedDays ↔
      (some 1 ∈ exStored.completedDays ∧ 1 ≤ (1 : Int) ∧ (1 : Int) ≤ exStored.totalDays)) :=
  ⟨(C2_restore_validation exStoredBadVersion now0).1 (Or.inl (by decide)),
   ((C2_restore_validation exStored now0).2 (by decide) (by decide) (by decide)).2.2 1⟩

/-! ## C6: the ledger invariant

The claim as stated fails: `loadFromStorage` accepts a structurally valid
stored record with `totalDays = 0` and `sankalpStarted = true` (zero
reconstructed days equals the stored `totalDays`), restoring a started
state whose `totalDays` is not `≥ 1`; similarly, `startSankalp` does not
clear a stale completed set. The counterexample exhibits the restore case;
the amended theorem adds the forced side conditions. -/

/-- C6 counterexample: restoring `badStored` (version 1, `totalDays = 0`,
`sankalpStarted = true`, valid start date) succeeds and produces a started
state violating the invariant, although the pre-restore state satisfied it. -/
theorem C6_invariant_counterexample :
    LedgerInv initialState ∧
    (loadFromStorage (some badStored) now0).2 = some badStored ∧
    (loadFromStorage (some badStored) now0).1.sankalpStarted = true ∧
    ¬ LedgerInv ((loadFromStorage (some badStored) now0).1) := by
  refine ⟨by decide, by decide, by decide, by decide⟩

/-- C6 amended. Toggle and reset preserve the invariant unconditionally;
`startSankalp` preserves it provided the pre-state's completed set is empty
(start does not clear `completedDays`); restore yields an invariant-
satisfying state provided the stored record's `totalDays` is at least 1. -/
theorem C6_invariant_amended (st : TrackerState) (d : Int) (now : DateTime)
    (data : StoredSankalpData) :
    (LedgerInv st → LedgerInv (toggleDay st d)) ∧
    LedgerInv (resetSankalp st) ∧
    (LedgerInv st → st.completedDays = ∅ → LedgerInv (startSankalp st now)) ∧
    (1 ≤ data.totalDays → LedgerInv ((loadFromStorage (some data) now).1)) := by
  refine ⟨?_, ?_, ?_, ?_⟩
  · intro hInv hs
    obtain ⟨f1, f2, f3, f4, f5⟩ := toggleDay_frame st d
    rw [f2] at hs
    obtain ⟨l1, l2, l3⟩ := hInv hs
    refine ⟨by rw [f3, f4]; exact l1, by rw [f4]; exact l2, ?_⟩
    intro n hn
    rw [f4]
    rcases toggleDay_completed_cases st d with hc | ⟨hc, _⟩ | ⟨hc, _, hd1, hd2⟩
    · rw [hc] at hn
      exact l3 n hn
    · rw [hc] at hn
      exact l3 n (Finset.mem_of_mem_erase hn)
    · rw [hc] at hn
      rcases Finset.mem_insert.1 hn with rfl | hn2
      · exact ⟨hd1, hd2⟩
      · exact l3 n hn2
  · intro h
    exact Bool.noConfusion h
  · intro hInv hemp
    by_cases hv : validateDaysInput st.days = []
    · obtain ⟨n, hp, h1, h2⟩ := validate_empty_bounds st.days hv
      rw [startSankalp_success st now n hp hv (by omega)]
      intro _
      refine ⟨?_, h1, ?_⟩
      · show ((generateSankalpDays n now).length : Int) = n
        rw [generate_length]
        omega
      · show ∀ m ∈ st.completedDays, _
        rw [hemp]
        intro m hm
        exact absurd hm (Finset.not_mem_empty m)
    · rw [startSankalp_fail st now hv]
      intro hs
      obtain ⟨l1, l2, l3⟩ := hInv hs
      exact ⟨l1, l2, l3⟩
  · intro hpos
    by_cases h1 : validateSankalpData data = false
    · rw [load_reject data now (Or.inl h1)]
      intro h
      exact Bool.noConfusion h
    · by_cases h2 : isValidDate data.startDate = false
      · rw [load_reject data now (Or.inr (Or.inl h2))]
        intro h
        exact Bool.noConfusion h
      · have hval : validateSankalpData data = true := by
          cases hb : validateSankalpData data
          · exact absurd hb h1
          · rfl
        have hsd : isValidDate data.startDate = true := by
          cases hb : isValidDate data.startDate
          · exact absurd hb h2
          · rfl
        by_cases h3 : ((data.sankalpDays.filterMap (reconstructDay now)).length : Int)
          = data.totalDays
        · rw [load_success data now hval hsd h3]
          intro _
          exact ⟨h3, hpos, fun n hn => loaded_completed_bounds data now n hn⟩
        · rw [load_reject data now (Or.inr (Or.inr h3))]
          intro h
          exact Bool.noConfusion h

/-- C6 witness (for the amended theorem). -/
theorem C6_invariant_amended_witness :
    LedgerInv (toggleDay exLedger 1) ∧
    LedgerInv (resetSankalp exLedger) ∧
    LedgerInv (startSankalp exLedger now0) ∧
    LedgerInv ((loadFromStorage (some exStored) now0).1) :=
  ⟨(C6_invariant_amended exLedger 1 now0 exStored).1 (by decide),
   (C6_invariant_amended exLedger 1 now0 exStored).2.1,
   (C6_invariant_amended exLedger 1 now0 exStored).2.2.1 (by decide) (by decide),
   (C6_invariant_amended exLedger 1 now0 exStored).2.2.2 (by decide)⟩

/-- C7 witness. -/
theorem C7_input_validation_witness :
    validateDaysInput " " = [blankError] ∧
    validateDaysInput "abc" = [nanError] ∧
    (startSankalp { initialState with days := "21" } now0).totalDays = 21 ∧
    (startSankalp { initialState with days := "0" } now0).completedDays = ∅ :=
  ⟨(C7_input_validation " " initialState now0).1 (by decide),
   (C7_input_validation "abc" initialState now0).2.1 (by decide) (by decide),
   ((C7_input_validation "x" { initialState with days := "21" } now0).2.2.2.2.2.1
     (by decide)).2,
   ((C7_input_validation "x" { initialState with days := "0" } now0).2.2.2.2.2.2
     (by decide)).2.2.2⟩

end Sankalp

-- sanity scratch (to be removed)
example : Sankalp.parseIntJS "21" = some 21 := by decide
example : Sankalp.parseIntJS "abc" = none := by decide
example : Sankalp.parseIntJS " -4x" = some (-4) := by decide
example : Sankalp.validateDaysInput "400" = [Sankalp.maxError] := by decide
example : Sankalp.validateDaysInput " " = [Sankalp.blankError] := by decide
example : Sankalp.validateDaysInput "21" = [] := by decide
example : (Sankalp.generateSankalpDays 3 ⟨5, 0⟩).map (fun d => d.day) = [1, 2, 3] := by decide
